import Mathlib

/-!
# Verification of the bench.ts process-supervision and sampling engine

Shallow embedding of the core of `src/bench.ts`:

* the adaptive sampling engine (`sample_needs_more`, `run_sampled`,
  `run_hot_sync` — both share the same control skeleton, embedded once),
* the command supervisor's completion state machine (`run_cmd`'s
  `fin_ok` / `fin_err` / `on_chunk` / close / error / timer handlers),
* the compile caches (`bend_compile_hvm` over `BEND_HVM_CACHE`),
* the execution matrix driver (`bench_all`).

Durations are modelled as rationals (JS numbers are used only through
`+`, `/` and comparisons on the values arising here).  A repeatable
action (`run_once`) is modelled as an oracle `ℕ → Option ℚ` giving, for
the i-th invocation, either `some d` (success, measured duration `d`
seconds) or `none` (the awaited promise rejects).  Thrown JS exceptions
are modelled as explicit error results.
-/

namespace Bench

/-! ## Configuration constants (src/bench.ts lines 26-36) -/

def MAX_BUFFER : ℕ := 64 * 1024 * 1024

def CMD_TIMEOUT_MS : ℕ := 20 * 60 * 1000

def DEF_WARMUP : ℕ := 1
def DEF_MIN_RUNS : ℕ := 1
def DEF_MAX_RUNS : ℕ := 1
def DEF_MIN_SECS : ℚ := 0

def TIMEOUT_PREFIX : String := "timed out after "

/-! ## Sampling (src/bench.ts lines 68-73, 241-248, 470-530) -/

/-- `SampleCfg` record (bench.ts lines 68-73). `warmup`, `min_runs`,
`max_runs` are integral counts in every use; `min_secs` is a duration. -/
structure SampleCfg where
  warmup   : ℕ
  min_runs : ℕ
  max_runs : ℕ
  min_secs : ℚ
  deriving Repr, DecidableEq

/-- `sample_cfg_get` (bench.ts lines 241-248): returns the `DEF_*`
constants unconditionally; the function body reads no environment
variable and no CLI argument. -/
def sample_cfg_get : SampleCfg :=
  { warmup := DEF_WARMUP, min_runs := DEF_MIN_RUNS,
    max_runs := DEF_MAX_RUNS, min_secs := DEF_MIN_SECS }

/-- `sample_needs_more` (bench.ts lines 470-484): the stopping predicate
of the timed-trial loop, checked before each trial. -/
def sample_needs_more (cnt : ℕ) (sum : ℚ) (cfg : SampleCfg) : Bool :=
  if cnt = 0 then true
  else if cnt ≥ cfg.max_runs then false
  else if cnt < cfg.min_runs ∧ sum < cfg.min_secs then true
  else false

/-- Result of one sampling session: the mean (`sum / cnt`), the `NaN`
sentinel returned when `cnt` ended at `0`, or a propagated exception. -/
inductive SampleRes where
  | mean (m : ℚ)
  | nan
  | err
  deriving Repr, DecidableEq

/-- Lines 503-506 of `run_sampled` (and 526-529 of `run_hot_sync`):
`if (cnt === 0) return NaN; return sum / cnt;`. -/
def sample_finish (cnt : ℕ) (sum : ℚ) : SampleRes :=
  if cnt = 0 then SampleRes.nan else SampleRes.mean (sum / (cnt : ℚ))

/-- Instrumented trace of one `run_sampled` call: how many times
`run_once` was invoked in total (warmup plus timed attempts), how many
timed trials completed (`cnt` at loop end), and the returned value. -/
structure SampleTrace where
  calls  : ℕ
  timed  : ℕ
  result : SampleRes
  deriving Repr, DecidableEq

/-- The warmup loop of `run_sampled` (bench.ts lines 488-490): invoke
`run` starting at call index `idx` while `rem` warmup iterations remain.
Returns the number of invocations made and whether all succeeded (a
`none` result models the awaited promise rejecting, which propagates). -/
def run_warmup (run : ℕ → Option ℚ) : ℕ → ℕ → ℕ × Bool
  | _,  0      => (0, true)
  | idx, rem + 1 =>
    match run idx with
    | none   => (1, false)
    | some _ =>
      let r := run_warmup run (idx + 1) rem
      (r.1 + 1, r.2)

/-- State of the timed-trial loop when it finishes: invocations made
inside the loop, final `cnt`, final `sum`, and whether no invocation
failed (`ok = false` models the exception propagating out of the loop). -/
structure LoopOut where
  calls : ℕ
  cnt   : ℕ
  sum   : ℚ
  ok    : Bool
  deriving Repr, DecidableEq

/-- The timed loop of `run_sampled` (bench.ts lines 492-501): while
`sample_needs_more cnt sum cfg`, invoke `run` once, add the measured
duration to `sum` and bump `cnt`.  `fuel` bounds the remaining
iterations; `run_sampled` passes `cfg.max_runs + 1`, which
`run_sampled_loop_fuel_irrelevant` below proves is always enough, so the
fuel is an embedding device only, not part of the modelled program. -/
def run_sampled_loop (run : ℕ → Option ℚ) (cfg : SampleCfg) :
    ℕ → ℕ → ℕ → ℚ → LoopOut
  | 0, _, cnt, sum => ⟨0, cnt, sum, true⟩
  | fuel + 1, idx, cnt, sum =>
    if sample_needs_more cnt sum cfg then
      match run idx with
      | none   => ⟨1, cnt, sum, false⟩
      | some d =>
        let r := run_sampled_loop run cfg fuel (idx + 1) (cnt + 1) (sum + d)
        ⟨r.calls + 1, r.cnt, r.sum, r.ok⟩
    else
      ⟨0, cnt, sum, true⟩

/-- `run_sampled` (bench.ts lines 487-507): warmup phase, then the timed
loop, then `NaN`-or-mean.  A failure anywhere propagates (result `err`)
with no further invocations.  `run_hot_sync` (lines 510-530) is the
synchronous twin with an identical body and is covered by this same
embedding. -/
def run_sampled (run : ℕ → Option ℚ) (cfg : SampleCfg) : SampleTrace :=
  let w := run_warmup run 0 cfg.warmup
  if w.2 then
    let l := run_sampled_loop run cfg (cfg.max_runs + 1) cfg.warmup 0 0
    if l.ok then
      { calls := w.1 + l.calls, timed := l.cnt, result := sample_finish l.cnt l.sum }
    else
      { calls := w.1 + l.calls, timed := l.cnt, result := SampleRes.err }
  else
    { calls := w.1, timed := 0, result := SampleRes.err }

/-! ## The `run_cmd` completion state machine (src/bench.ts lines 356-463)

`run_cmd` wraps one spawned child in a promise.  Its behaviour is driven
by events delivered by the runtime: stdout/stderr `data` chunks, the
`close` event (with the exit code, `null` when killed by a signal), the
`error` event (spawn failure) and the deadline timer.  We embed the
handler bodies verbatim as a step function over an explicit state, and a
whole invocation as a fold over the (arbitrary) event order.

A `data` chunk carries the Buffer's byte count (what `chunk.length`
measures and the overflow check adds up) and its decoded text (what
`Buffer.concat(...).toString("utf8")` contributes at `close`). -/

/-- One event delivered to `run_cmd`'s handlers. -/
inductive Ev where
  | out (bytes : ℕ) (content : String)
  | err (bytes : ℕ) (content : String)
  | close (code : Option ℤ)
  | spawnError (msg : String)
  | timer
  deriving Repr, DecidableEq

/-- The completion outcome: `ok out` for `resolve(out)`, `fail msg` for
`reject(new Error(msg))`. -/
inductive CmdRes where
  | ok (out : String)
  | fail (msg : String)
  deriving Repr, DecidableEq

/-- Mutable state of one `run_cmd` invocation (bench.ts lines 358-363),
instrumented with how many times a finalizer actually fired
(`resolutions`) and how many times post-resolution cleanup — clearing
the timer and deleting the pid from `ACTIVE_CHILDREN` — ran
(`cleanups`). -/
structure RunSt where
  done        : Bool
  out_bufs    : List String
  err_bufs    : List String
  out_len     : ℕ
  err_len     : ℕ
  result      : Option CmdRes
  resolutions : ℕ
  cleanups    : ℕ
  deriving Repr, DecidableEq

/-- Fresh state at spawn time. -/
def run_st_init : RunSt :=
  { done := false, out_bufs := [], err_bufs := [], out_len := 0, err_len := 0,
    result := none, resolutions := 0, cleanups := 0 }

/-- `fin_ok` (bench.ts lines 378-388): one-shot resolve guarded by
`done`; clears the timer and deregisters the pid exactly when it fires. -/
def fin_ok (out : String) (s : RunSt) : RunSt :=
  if s.done then s
  else
    { s with
        done := true
        result := some (CmdRes.ok out)
        resolutions := s.resolutions + 1
        cleanups := s.cleanups + 1 }

/-- `fin_err` (bench.ts lines 390-400): one-shot reject guarded by
`done`; clears the timer and deregisters the pid exactly when it fires. -/
def fin_err (msg : String) (s : RunSt) : RunSt :=
  if s.done then s
  else
    { s with
        done := true
        result := some (CmdRes.fail msg)
        resolutions := s.resolutions + 1
        cleanups := s.cleanups + 1 }

/-- `on_chunk` (bench.ts lines 402-415) as called from the stdout
`data` handler (lines 417-422), which passes `out_bufs` and the
`out_len` adder: append the chunk, add its byte count, and if the
combined captured size now exceeds `MAX_BUFFER`, force-kill the process
group and reject with the overflow diagnostic.  (The kill is an external
side effect, not part of the machine state.) -/
def on_chunk_out (cmd_txt : String) (bytes : ℕ) (content : String) (s : RunSt) : RunSt :=
  let t := { s with out_bufs := s.out_bufs ++ [content], out_len := s.out_len + bytes }
  if t.out_len + t.err_len > MAX_BUFFER then
    fin_err ("output exceeded max buffer: " ++ cmd_txt) t
  else
    t

/-- `on_chunk` as called from the stderr `data` handler (bench.ts lines
424-429), which passes `err_bufs` and the `err_len` adder. -/
def on_chunk_err (cmd_txt : String) (bytes : ℕ) (content : String) (s : RunSt) : RunSt :=
  let t := { s with err_bufs := s.err_bufs ++ [content], err_len := s.err_len + bytes }
  if t.out_len + t.err_len > MAX_BUFFER then
    fin_err ("output exceeded max buffer: " ++ cmd_txt) t
  else
    t

/-- The `close` handler (bench.ts lines 435-451): exit code 0 resolves
with the concatenated stdout; otherwise reject with trimmed stderr,
falling back to trimmed stdout, falling back to a generic message. -/
def on_close (cmd_txt : String) (code : Option ℤ) (s : RunSt) : RunSt :=
  let out := String.join s.out_bufs
  let err := String.join s.err_bufs
  if code = some 0 then
    fin_ok out s
  else
    let msg := err.trim
    let msg := if msg.length = 0 then out.trim else msg
    let msg := if msg.length = 0 then "command failed: " ++ cmd_txt else msg
    fin_err msg s

/-- One handler dispatch.  The `error` event carries the message already
formatted by `spawn_err_msg` (bench.ts lines 431-433); the timer handler
(lines 453-462) force-kills the group and rejects with the timeout
message. -/
def run_cmd_step (cmd_txt : String) (s : RunSt) (e : Ev) : RunSt :=
  match e with
  | Ev.out bytes content => on_chunk_out cmd_txt bytes content s
  | Ev.err bytes content => on_chunk_err cmd_txt bytes content s
  | Ev.close code => on_close cmd_txt code s
  | Ev.spawnError msg => fin_err msg s
  | Ev.timer =>
    fin_err ( TIMEOUT_PREFIX ++ toString CMD_TIMEOUT_MS ++ "ms: " ++ cmd_txt) s

/-- One whole `run_cmd` invocation, as the fold of its handlers over the
sequence of events the runtime delivers. -/
def run_cmd_events (cmd_txt : String) (evs : List Ev) : RunSt :=
  evs.foldl (run_cmd_step cmd_txt) run_st_init

/-- `err_is_timeout` (bench.ts lines 351-353). -/
def err_is_timeout (msg : String) : Bool :=
  msg.startsWith TIMEOUT_PREFIX

/-- An event that unconditionally invokes a finalizer: `close`,
`error`, or the timeout timer.  Every completed real invocation
delivers at least one of these (the timer fires if nothing else does). -/
def ev_terminal : Ev → Bool
  | Ev.close _ => true
  | Ev.spawnError _ => true
  | Ev.timer => true
  | _ => false

/-- Total byte count a chunk event adds to the captured buffers. -/
def ev_bytes : Ev → ℕ
  | Ev.out bytes _ => bytes
  | Ev.err bytes _ => bytes
  | _ => 0

/-- Whether an event is a stdout/stderr data chunk. -/
def ev_is_chunk : Ev → Bool
  | Ev.out _ _ => true
  | Ev.err _ _ => true
  | _ => false

/-! ## Compile caches (src/bench.ts lines 780-782, 810-823, 883-900)

`BEND_HVM_CACHE` is a `Map<string, string>`, modelled as an association
list (later bindings shadow).  The filesystem and the child process are
collaborators: the outcome of the `run_cmd` compile step is an oracle
argument (`exec`), `ok out` carrying the compiler's stdout and `fail e`
a rejection.  `tmp_path` is deterministic in its arguments, so the
artifact path `fil` the build would write to is passed explicitly. -/

/-- `Map.get` on the association-list model of a string `Map`. -/
def cache_lookup : List (String × String) → String → Option String
  | [], _ => none
  | (k, v) :: rest, key => if k = key then some v else cache_lookup rest key

/-- Outcome of one `bend_compile_hvm` call: the cache afterwards, the
returned artifact path (or the propagated rejection), and whether the
underlying build (the `run_cmd` compile step) was executed. -/
structure CacheCall where
  cache  : List (String × String)
  result : Except String String
  built  : Bool
  deriving Repr

/-- `bend_compile_hvm` (bench.ts lines 883-900): look up
`bend_cmd + "|" + cli_flag + "|" + file` in `BEND_HVM_CACHE`; on a hit
return the stored path without building; on a miss run the compiler
(`exec` is that `run_cmd`'s outcome) — a rejection propagates before
the cache is written, a success writes the output to `fil` and stores
`fil` under the key.  `hvm_compile_bin` (lines 810-823) and
`bend_compile_js_lib` (lines 903-917) follow the identical pattern over
their own caches. -/
def bend_compile_hvm (exec : Except String String)
    (cache : List (String × String)) (bend_cmd cli_flag file fil : String) :
    CacheCall :=
  let key := bend_cmd ++ "|" ++ cli_flag ++ "|" ++ file
  match cache_lookup cache key with
  | some old => { cache := cache, result := Except.ok old, built := false }
  | none =>
    match exec with
    | Except.error e => { cache := cache, result := Except.error e, built := true }
    | Except.ok _ => { cache := (key, fil) :: cache, result := Except.ok fil, built := true }

/-- The cache key `bend_compile_hvm` computes (bench.ts line 888). -/
def bend_hvm_key (bend_cmd cli_flag file : String) : String :=
  bend_cmd ++ "|" ++ cli_flag ++ "|" ++ file

/-! ## Execution matrix (src/bench.ts lines 53-66, 116-118, 1299-1357) -/

/-- `CellState` (bench.ts line 53).  `na` renders as `N/A`. -/
inductive CellState where
  | pending
  | running
  | done
  | error
  | timeout
  | na
  deriving Repr, DecidableEq

/-- `Cell` (bench.ts lines 55-59). -/
structure Cell where
  state : CellState
  secs  : Option ℚ
  err   : Option String
  deriving Repr, DecidableEq

/-- `cell_new` (bench.ts lines 116-118). -/
def cell_new (state : CellState) : Cell :=
  { state := state, secs := none, err := none }

/-- `ModeInput` (bench.ts line 75). -/
inductive ModeInput where
  | bend
  | hvm
  deriving Repr, DecidableEq

/-- The slice of a `Row` (bench.ts lines 61-66) the matrix driver
consults: the name and which input files exist (`none` models `null`). -/
structure RowM where
  name      : String
  bend_file : Option String
  hvm_file  : Option String
  deriving Repr, DecidableEq

/-- The slice of a `Mode` (bench.ts lines 92-104) the matrix driver
consults: the cell key `flag` and the required input kind. -/
structure ModeM where
  flag  : String
  input : ModeInput
  deriving Repr, DecidableEq

/-- The initial state assignment of `bench_all` (bench.ts lines
1306-1317): `na` exactly when the mode's required input file is absent
from the row, `pending` otherwise. -/
def cell_init_state (mode : ModeM) (row : RowM) : CellState :=
  let s := CellState.pending
  let s := if mode.input = ModeInput.bend ∧ row.bend_file = none then CellState.na else s
  if mode.input = ModeInput.hvm ∧ row.hvm_file = none then CellState.na else s

/-- Whether the mode's required input file is absent from the row. -/
def required_input_missing (mode : ModeM) (row : RowM) : Bool :=
  match mode.input with
  | ModeInput.bend => row.bend_file = none
  | ModeInput.hvm => row.hvm_file = none

/-- The per-cell body of `bench_all`'s loop (bench.ts lines 1326-1349):
an `na` cell is skipped (the mode's run function is never invoked);
otherwise the run function's outcome (`ok secs` or `error msg`) drives
the transition to `done`, `timeout`, or `error`.  Returns the final
cell, whether this cell set `had_error`, and whether the run function
was invoked. -/
def cell_run (outcome : Except String ℚ) (c : Cell) : Cell × Bool × Bool :=
  if c.state = CellState.na then
    (c, false, false)
  else
    match outcome with
    | Except.ok secs =>
      ({ state := CellState.done, secs := some secs, err := none }, false, true)
    | Except.error msg =>
      ({ state := if err_is_timeout msg then CellState.timeout else CellState.error,
         secs := c.secs, err := some msg }, true, true)

/-- One settled matrix entry: the row, the mode, the final cell, whether
it raised `had_error`, and whether the mode's run function was invoked. -/
structure MatrixEntry where
  row     : RowM
  mode    : ModeM
  cell    : Cell
  flagged : Bool
  invoked : Bool
  deriving Repr, DecidableEq

/-- Result of `bench_all`: process exit code plus the settled matrix. -/
structure BenchOut where
  code    : ℕ
  entries : List MatrixEntry
  deriving Repr, DecidableEq

/-- Builds one settled entry for a (row, mode) pair.  `outcome` is the
oracle for the mode's run function, keyed by row name and mode flag. -/
def bench_entry (outcome : String → String → Except String ℚ)
    (row : RowM) (mode : ModeM) : MatrixEntry :=
  let c0 := cell_new (cell_init_state mode row)
  let r := cell_run (outcome row.name mode.flag) c0
  { row := row, mode := mode, cell := r.1, flagged := r.2.1, invoked := r.2.2 }

/-- `bench_all` (bench.ts lines 1299-1357): bail out with exit code 1
when no benchmark rows were discovered; otherwise build every cell,
drive each non-`na` cell through its run function in row-major order,
and exit 1 iff some cell flagged an error or timeout.  Rendering calls
are display-only collaborators and are not modelled. -/
def bench_all (outcome : String → String → Except String ℚ)
    (rows : List RowM) (modes : List ModeM) : BenchOut :=
  if rows.isEmpty then
    { code := 1, entries := [] }
  else
    let entries := rows.flatMap (fun row => modes.map (bench_entry outcome row))
    let had_error := entries.any (fun e => e.flagged)
    { code := if had_error then 1 else 0, entries := entries }

/-! ## Lemmas about the sampling loop -/

theorem sample_needs_more_zero (sum : ℚ) (cfg : SampleCfg) :
    sample_needs_more 0 sum cfg = true := by
  simp [sample_needs_more]

theorem sample_needs_more_true_elim {cnt : ℕ} {sum : ℚ} {cfg : SampleCfg}
    (h : sample_needs_more cnt sum cfg = true) :
    cnt = 0 ∨ cnt < cfg.max_runs := by
  rcases Nat.eq_zero_or_pos cnt with h0 | h0
  · exact Or.inl h0
  · right
    by_contra hm
    have hge : cfg.max_runs ≤ cnt := Nat.le_of_not_lt hm
    simp [sample_needs_more, Nat.pos_iff_ne_zero.mp h0, hge] at h

theorem sample_needs_more_of_ge {cnt : ℕ} {sum : ℚ} {cfg : SampleCfg}
    (h1 : cfg.max_runs ≤ cnt) (h2 : cnt ≠ 0) :
    sample_needs_more cnt sum cfg = false := by
  simp [sample_needs_more, h2, h1]

/-- The loop never decreases `cnt`. -/
theorem run_sampled_loop_cnt_mono (run : ℕ → Option ℚ) (cfg : SampleCfg) :
    ∀ fuel idx cnt sum, cnt ≤ (run_sampled_loop run cfg fuel idx cnt sum).cnt := by
  intro fuel
  induction fuel with
  | zero =>
    intro idx cnt sum
    simp [run_sampled_loop]
  | succ f ih =>
    intro idx cnt sum
    by_cases hn : sample_needs_more cnt sum cfg = true
    · cases hr : run idx with
      | none => simp [run_sampled_loop, hn, hr]
      | some d =>
        have h2 := ih (idx + 1) (cnt + 1) (sum + d)
        simp only [run_sampled_loop, hn, if_true, hr]
        omega
    · simp [run_sampled_loop, hn]

/-- If the loop stopping predicate already fails, the loop performs no
invocation, for any fuel. -/
theorem run_sampled_loop_stop (run : ℕ → Option ℚ) (cfg : SampleCfg)
    {cnt : ℕ} {sum : ℚ} (h : sample_needs_more cnt sum cfg = false) :
    ∀ fuel idx, run_sampled_loop run cfg fuel idx cnt sum = ⟨0, cnt, sum, true⟩ := by
  intro fuel idx
  cases fuel with
  | zero => rfl
  | succ f => simp [run_sampled_loop, h]

/-- Any fuel of at least `max_runs + 1 - cnt` computes the same loop
result: the fuel passed by `run_sampled` is an inert embedding device. -/
theorem run_sampled_loop_fuel_irrelevant (run : ℕ → Option ℚ) (cfg : SampleCfg) :
    ∀ f₁ f₂ idx cnt sum, cfg.max_runs + 1 ≤ f₁ + cnt → cfg.max_runs + 1 ≤ f₂ + cnt →
      run_sampled_loop run cfg f₁ idx cnt sum = run_sampled_loop run cfg f₂ idx cnt sum := by
  intro f₁
  induction f₁ with
  | zero =>
    intro f₂ idx cnt sum h₁ h₂
    have hstop : sample_needs_more cnt sum cfg = false :=
      sample_needs_more_of_ge (by omega) (by omega)
    rw [run_sampled_loop_stop run cfg hstop, run_sampled_loop_stop run cfg hstop]
  | succ f ih =>
    intro f₂ idx cnt sum h₁ h₂
    cases f₂ with
    | zero =>
      have hstop : sample_needs_more cnt sum cfg = false :=
        sample_needs_more_of_ge (by omega) (by omega)
      rw [run_sampled_loop_stop run cfg hstop, run_sampled_loop_stop run cfg hstop]
    | succ g =>
      by_cases hn : sample_needs_more cnt sum cfg = true
      · cases hr : run idx with
        | none => simp [run_sampled_loop, hn, hr]
        | some d =>
          have := ih g (idx + 1) (cnt + 1) (sum + d) (by omega) (by omega)
          simp only [run_sampled_loop, hn, if_true, hr]
          rw [this]
      · rw [run_sampled_loop_stop run cfg (Bool.of_not_eq_true hn),
          run_sampled_loop_stop run cfg (Bool.of_not_eq_true hn)]

/-- With an always-succeeding action, the loop never fails and performs
exactly `cnt' - cnt` invocations. -/
theorem run_sampled_loop_success (run : ℕ → Option ℚ) (cfg : SampleCfg)
    (hs : ∀ i, (run i).isSome) :
    ∀ fuel idx cnt sum,
      (run_sampled_loop run cfg fuel idx cnt sum).ok = true ∧
      (run_sampled_loop run cfg fuel idx cnt sum).cnt =
        cnt + (run_sampled_loop run cfg fuel idx cnt sum).calls := by
  intro fuel
  induction fuel with
  | zero =>
    intro idx cnt sum
    simp [run_sampled_loop]
  | succ f ih =>
    intro idx cnt sum
    by_cases hn : sample_needs_more cnt sum cfg = true
    · cases hr : run idx with
      | none =>
        have := hs idx
        rw [hr] at this
        simp at this
      | some d =>
        have h2 := ih (idx + 1) (cnt + 1) (sum + d)
        simp only [run_sampled_loop, hn, if_true, hr]
        refine ⟨h2.1, ?_⟩
        omega
    · simp [run_sampled_loop, hn]

/-- The final `cnt` never exceeds `max_runs` (for positive `max_runs`). -/
theorem run_sampled_loop_cnt_le_max (run : ℕ → Option ℚ) (cfg : SampleCfg)
    (hmax : 1 ≤ cfg.max_runs) :
    ∀ fuel idx cnt sum, cnt ≤ cfg.max_runs →
      (run_sampled_loop run cfg fuel idx cnt sum).cnt ≤ cfg.max_runs := by
  intro fuel
  induction fuel with
  | zero =>
    intro idx cnt sum h
    simpa [run_sampled_loop] using h
  | succ f ih =>
    intro idx cnt sum h
    by_cases hn : sample_needs_more cnt sum cfg = true
    · cases hr : run idx with
      | none => simpa [run_sampled_loop, hn, hr] using h
      | some d =>
        have hlt : cnt + 1 ≤ cfg.max_runs := by
          rcases sample_needs_more_true_elim hn with hc | hc <;> omega
        have h2 := ih (idx + 1) (cnt + 1) (sum + d) hlt
        simp only [run_sampled_loop, hn, if_true, hr]
        exact h2
    · simpa [run_sampled_loop, hn] using h

/-- A loop entered at `cnt = 0` that completes without a failure has
performed at least one timed trial. -/
theorem run_sampled_loop_pos (run : ℕ → Option ℚ) (cfg : SampleCfg)
    (fuel idx : ℕ) (sum : ℚ)
    (h : (run_sampled_loop run cfg (fuel + 1) idx 0 sum).ok = true) :
    1 ≤ (run_sampled_loop run cfg (fuel + 1) idx 0 sum).cnt := by
  have hz : sample_needs_more 0 sum cfg = true := sample_needs_more_zero sum cfg
  cases hr : run idx with
  | none => simp [run_sampled_loop, hz, hr] at h
  | some d =>
    have := run_sampled_loop_cnt_mono run cfg fuel (idx + 1) 1 (sum + d)
    simp only [run_sampled_loop, hz, if_true, hr, Nat.zero_add]
    omega

/-- All warmup invocations succeeding, the warmup phase makes exactly
`rem` invocations. -/
theorem run_warmup_ok (run : ℕ → Option ℚ) :
    ∀ rem idx, (∀ j, j < rem → (run (idx + j)).isSome) →
      run_warmup run idx rem = (rem, true) := by
  intro rem
  induction rem with
  | zero =>
    intro idx _
    rfl
  | succ m ih =>
    intro idx h
    have h0 : (run idx).isSome := by simpa using h 0 (Nat.succ_pos m)
    cases hr : run idx with
    | none =>
      rw [hr] at h0
      simp at h0
    | some d =>
      have hrec := ih (idx + 1) (fun j hj => by
        have hx := h (j + 1) (Nat.succ_lt_succ hj)
        rw [show idx + 1 + j = idx + (j + 1) by omega]
        exact hx)
      simp [run_warmup, hr, hrec]

/-- A first warmup failure at offset `j` aborts the warmup phase after
`j + 1` invocations. -/
theorem run_warmup_fail (run : ℕ → Option ℚ) :
    ∀ rem idx j, j < rem → run (idx + j) = none →
      (∀ i, i < j → (run (idx + i)).isSome) →
      run_warmup run idx rem = (j + 1, false) := by
  intro rem
  induction rem with
  | zero =>
    intro idx j hj
    exact absurd hj (Nat.not_lt_zero j)
  | succ m ih =>
    intro idx j hj hn hs
    cases j with
    | zero =>
      have hn' : run idx = none := by simpa using hn
      simp [run_warmup, hn']
    | succ k =>
      have h0 : (run idx).isSome := by simpa using hs 0 (Nat.succ_pos k)
      cases hr : run idx with
      | none =>
        rw [hr] at h0
        simp at h0
      | some d =>
        have hrec := ih (idx + 1) k (by omega)
          (by rw [show idx + 1 + k = idx + (k + 1) by omega]; exact hn)
          (fun i hi => by
            rw [show idx + 1 + i = idx + (i + 1) by omega]
            exact hs (i + 1) (by omega))
        simp [run_warmup, hr, hrec]

/-- `run_sampled` never returns the `NaN` sentinel: when it completes
without a propagated failure it has performed at least one timed trial,
so the `cnt === 0` guard before the mean is dead code. -/
theorem run_sampled_ne_nan (run : ℕ → Option ℚ) (cfg : SampleCfg) :
    (run_sampled run cfg).result ≠ SampleRes.nan := by
  unfold run_sampled
  by_cases hw : (run_warmup run 0 cfg.warmup).2 = true
  · simp only [hw, if_true]
    by_cases hl : (run_sampled_loop run cfg (cfg.max_runs + 1) cfg.warmup 0 0).ok = true
    · have hpos := run_sampled_loop_pos run cfg cfg.max_runs cfg.warmup 0 hl
      simp only [hl, if_true]
      simp [sample_finish, Nat.pos_iff_ne_zero.mp hpos]
    · simp [hl]
  · simp [hw]

end Bench

open Bench

/-! ## Claims C1–C4, C9, C10: the sampling controller -/

/-- **C1** (counterexample).  With configuration
{warmup 1, min_runs 3, max_runs 10, min_secs 0.5} and a `run_once` whose
every timed trial takes 5 seconds, `run_sampled` performs exactly one
timed trial — not the three the claim asserts.  The loop continues only
while `cnt < min_runs` AND `sum < min_secs`; the first 5-second trial
already pushes `sum` past `min_secs`, so min_runs does not take
precedence. -/
theorem C1_counterexample :
    (run_sampled (fun _ => some 5) ⟨1, 3, 10, 1/2⟩).timed = 1 ∧ (1 : ℕ) ≠ 3 := by
  constructor
  · norm_num [run_sampled, run_warmup, run_sampled_loop, sample_needs_more, sample_finish]
  · decide

/-- **C1** (amended).  For {warmup 1, min_runs 3, max_runs 10,
min_secs 0.5}: with every timed trial taking 5s, `run_sampled` stops
after exactly one timed trial (cumulative seconds ≥ min_secs ends the
loop even though min_runs is unmet, since continuing requires both
`cnt < min_runs` and `sum < min_secs`); with every trial taking 0.2s it
performs exactly 3 timed trials and reports a mean of exactly 0.2s. -/
theorem C1_theorem :
    (run_sampled (fun _ => some 5) ⟨1, 3, 10, 1/2⟩).timed = 1 ∧
    (run_sampled (fun _ => some (1/5)) ⟨1, 3, 10, 1/2⟩).timed = 3 ∧
    (run_sampled (fun _ => some (1/5)) ⟨1, 3, 10, 1/2⟩).result = SampleRes.mean (1/5) := by
  refine ⟨?_, ?_, ?_⟩ <;>
    norm_num [run_sampled, run_warmup, run_sampled_loop, sample_needs_more, sample_finish]

/-- **C2** (counterexample).  Configuration {warmup 0, min_runs 2,
max_runs 2, min_secs 0} with a succeeding `run_once` of negligible
positive duration (1ms): `run_sampled` performs 1 timed trial, not
`min_runs = 2` — once `min_secs = 0`, the continuation condition
`sum < min_secs` can never hold. -/
theorem C2_counterexample :
    (run_sampled (fun _ => some (1/1000)) ⟨0, 2, 2, 0⟩).timed = 1 ∧
    (⟨0, 2, 2, 0⟩ : SampleCfg).min_runs = 2 ∧ (1 : ℕ) ≠ 2 := by
  refine ⟨?_, rfl, ?_⟩
  · norm_num [run_sampled, run_warmup, run_sampled_loop, sample_needs_more, sample_finish]
  · decide

/-- **C2** (amended).  For every configuration with min_secs = 0,
min_runs ≥ 1 and max_runs ≥ min_runs, and every succeeding `run_once`
of nonnegative duration, `run_sampled` performs exactly ONE timed trial
(not `min_runs` of them: continuing requires `sum < min_secs = 0`,
impossible once a nonnegative duration has been added) and hence never
more than `max_runs` timed trials. -/
theorem C2_theorem (run : ℕ → Option ℚ) (cfg : SampleCfg) (d : ℚ)
    (hms : cfg.min_secs = 0) (hmin : 1 ≤ cfg.min_runs) (hmm : cfg.min_runs ≤ cfg.max_runs)
    (hwarm : ∀ j, j < cfg.warmup → (run j).isSome)
    (hfst : run cfg.warmup = some d) (hd : 0 ≤ d) :
    (run_sampled run cfg).timed = 1 ∧ (run_sampled run cfg).timed ≤ cfg.max_runs := by
  have hmax : 1 ≤ cfg.max_runs := le_trans hmin hmm
  have hw : run_warmup run 0 cfg.warmup = (cfg.warmup, true) :=
    run_warmup_ok run cfg.warmup 0 (fun j hj => by simpa using hwarm j hj)
  have hstop : sample_needs_more 1 d cfg = false := by
    by_cases h1 : cfg.max_runs ≤ 1
    · exact sample_needs_more_of_ge h1 one_ne_zero
    · have hnd : ¬ (d < cfg.min_secs) := by
        rw [hms]
        exact not_lt.mpr hd
      simp [sample_needs_more, h1, hnd]
  have hloop : run_sampled_loop run cfg (cfg.max_runs + 1) cfg.warmup 0 0 = ⟨1, 1, d, true⟩ := by
    have hz := sample_needs_more_zero 0 cfg
    simp only [run_sampled_loop, hz, if_true, hfst, zero_add]
    rw [run_sampled_loop_stop run cfg hstop]
  constructor
  · simp [run_sampled, hw, hloop]
  · simp [run_sampled, hw, hloop]
    exact hmax

/-- **C2** (witness). -/
theorem C2_witness :
    (run_sampled (fun _ => some (1/1000)) ⟨1, 3, 5, 0⟩).timed = 1 ∧
      (run_sampled (fun _ => some (1/1000)) ⟨1, 3, 5, 0⟩).timed ≤ 5 :=
  C2_theorem (fun _ => some (1/1000)) ⟨1, 3, 5, 0⟩ (1/1000) rfl
    (by norm_num) (by norm_num) (fun j _ => rfl) rfl (by norm_num)

/-- **C3** (confirmed).  For every configuration with
1 ≤ min_runs ≤ max_runs and every succeeding `run_once`, `run_sampled`
invokes `run_once` at least `warmup + 1` times and at most
`warmup + max_runs` times. -/
theorem C3_theorem (run : ℕ → Option ℚ) (cfg : SampleCfg)
    (hmin : 1 ≤ cfg.min_runs) (hmm : cfg.min_runs ≤ cfg.max_runs)
    (hs : ∀ i, (run i).isSome) :
    cfg.warmup + 1 ≤ (run_sampled run cfg).calls ∧
      (run_sampled run cfg).calls ≤ cfg.warmup + cfg.max_runs := by
  have hmax : 1 ≤ cfg.max_runs := le_trans hmin hmm
  have hw : run_warmup run 0 cfg.warmup = (cfg.warmup, true) :=
    run_warmup_ok run cfg.warmup 0 (fun j _ => hs (0 + j))
  have hsucc := run_sampled_loop_success run cfg hs (cfg.max_runs + 1) cfg.warmup 0 0
  have hpos := run_sampled_loop_pos run cfg cfg.max_runs cfg.warmup 0 hsucc.1
  have hle := run_sampled_loop_cnt_le_max run cfg hmax (cfg.max_runs + 1) cfg.warmup 0 0
    (Nat.zero_le _)
  have h2 := hsucc.2
  have hcalls : (run_sampled run cfg).calls =
      cfg.warmup + (run_sampled_loop run cfg (cfg.max_runs + 1) cfg.warmup 0 0).calls := by
    simp [run_sampled, hw, hsucc.1]
  rw [hcalls]
  omega

/-- **C3** (witness). -/
theorem C3_witness :
    2 + 1 ≤ (run_sampled (fun _ => some 1) ⟨2, 2, 3, 1000⟩).calls ∧
      (run_sampled (fun _ => some 1) ⟨2, 2, 3, 1000⟩).calls ≤ 2 + 3 :=
  C3_theorem (fun _ => some 1) ⟨2, 2, 3, 1000⟩ (by norm_num) (by norm_num) (fun _ => rfl)

/-- **C4** (counterexample).  The zero-count finalization of
`run_sampled` / `run_hot_sync` (`if (cnt === 0) return NaN`) returns the
`NaN` sentinel, which is not a propagated "no timed runs executed"
failure. -/
theorem C4_counterexample :
    sample_finish 0 0 = SampleRes.nan ∧ SampleRes.nan ≠ SampleRes.err := by
  exact ⟨rfl, by decide⟩

/-- **C4** (amended).  If the count of completed timed trials is 0 when
the sampling loop of `run_sampled` ends, `run_sampled` returns `NaN`
rather than signalling an explicit failure; moreover the branch is
unreachable — `run_sampled` never actually returns the `NaN` sentinel,
because whenever it completes without a propagated failure it has
performed at least one timed trial.  (An explicit "no timed runs were
executed" error exists only in the generated Node helper script
`js_node_runner_src`, not in `run_sampled`/`run_hot_sync`.) -/
theorem C4_theorem :
    sample_finish 0 0 = SampleRes.nan ∧
      ∀ (run : ℕ → Option ℚ) (cfg : SampleCfg),
        (run_sampled run cfg).result ≠ SampleRes.nan :=
  ⟨rfl, run_sampled_ne_nan⟩

/-- **C9** (confirmed).  `run_sampled` performs exactly `warmup`
invocations in the warmup phase when they all succeed; a warmup failure
at offset `j` propagates immediately (`err`, zero timed trials, exactly
`j + 1` invocations made); and with an always-failing `run_once` it
propagates the failure after exactly one invocation in total — hence at
most one timed trial attempt — returning no partial mean. -/
theorem C9_theorem (run : ℕ → Option ℚ) (cfg : SampleCfg) :
    ((∀ j, j < cfg.warmup → (run j).isSome) →
        run_warmup run 0 cfg.warmup = (cfg.warmup, true)) ∧
    (∀ j, j < cfg.warmup → run j = none → (∀ i, i < j → (run i).isSome) →
        run_sampled run cfg = ⟨j + 1, 0, SampleRes.err⟩) ∧
    ((∀ i, run i = none) → run_sampled run cfg = ⟨1, 0, SampleRes.err⟩) := by
  refine ⟨?_, ?_, ?_⟩
  · intro h
    exact run_warmup_ok run cfg.warmup 0 (fun j hj => by simpa using h j hj)
  · intro j hj hn hs
    have hw : run_warmup run 0 cfg.warmup = (j + 1, false) :=
      run_warmup_fail run cfg.warmup 0 j hj (by simpa using hn)
        (fun i hi => by simpa using hs i hi)
    simp [run_sampled, hw]
  · intro h
    cases hwc : cfg.warmup with
    | zero =>
      have hz := sample_needs_more_zero 0 cfg
      have hloop : run_sampled_loop run cfg (cfg.max_runs + 1) cfg.warmup 0 0
          = ⟨1, 0, 0, false⟩ := by
        simp only [run_sampled_loop, hz, if_true, h cfg.warmup]
      have hw : run_warmup run 0 cfg.warmup = (0, true) := by
        rw [hwc]
        rfl
      simp [run_sampled, hw, hloop]
    | succ m =>
      have hw : run_warmup run 0 cfg.warmup = (0 + 1, false) :=
        run_warmup_fail run cfg.warmup 0 0 (by omega) (by simpa using h 0)
          (fun i hi => absurd hi (Nat.not_lt_zero i))
      simp [run_sampled, hw]

/-- **C9** (witness). -/
theorem C9_witness :
    run_sampled (fun _ => none) ⟨2, 3, 5, 0⟩ = ⟨1, 0, SampleRes.err⟩ :=
  (C9_theorem (fun _ => none) ⟨2, 3, 5, 0⟩).2.2 (fun _ => rfl)

/-- **C10** (confirmed).  `sample_cfg_get` returns the constant
configuration {warmup 1, min_runs 1, max_runs 1, min_secs 0} (it reads
neither environment variables nor CLI arguments — its body mentions only
the `DEF_*` constants), and consequently every applicable cell's
reported mean is the duration of exactly one timed run preceded by
exactly one warmup run: two invocations in total, one timed trial, mean
equal to that single timed duration. -/
theorem C10_theorem (run : ℕ → Option ℚ) (d : ℚ)
    (h0 : (run 0).isSome) (h1 : run 1 = some d) :
    sample_cfg_get = ⟨1, 1, 1, 0⟩ ∧
      run_sampled run sample_cfg_get = ⟨2, 1, SampleRes.mean d⟩ := by
  refine ⟨rfl, ?_⟩
  obtain ⟨e, hr⟩ := Option.isSome_iff_exists.mp h0
  norm_num [run_sampled, sample_cfg_get, DEF_WARMUP, DEF_MIN_RUNS, DEF_MAX_RUNS,
    DEF_MIN_SECS, run_warmup, run_sampled_loop, sample_needs_more, sample_finish, hr, h1]

/-- **C10** (witness). -/
theorem C10_witness :
    sample_cfg_get = ⟨1, 1, 1, 0⟩ ∧
      run_sampled (fun _ => some 7) sample_cfg_get = ⟨2, 1, SampleRes.mean 7⟩ :=
  C10_theorem (fun _ => some 7) 7 rfl rfl

namespace Bench

/-! ## Lemmas about the `run_cmd` completion machine -/

/-- The one-shot completion invariant of one `run_cmd` invocation:
cleanup ran as often as a finalizer fired, a finalizer fired at most
once, and it fired exactly once iff the invocation is finished. -/
def run_st_inv (s : RunSt) : Prop :=
  s.cleanups = s.resolutions ∧ s.resolutions ≤ 1 ∧ (s.done = true ↔ s.resolutions = 1)

theorem run_st_inv_init : run_st_inv run_st_init := by
  simp [run_st_inv, run_st_init]

theorem fin_ok_inv {s : RunSt} (h : run_st_inv s) (out : String) :
    run_st_inv (fin_ok out s) := by
  obtain ⟨h1, h2, h3⟩ := h
  by_cases hd : s.done = true
  · simpa [fin_ok, hd] using ⟨h1, h2, h3⟩
  · have h0 : s.resolutions = 0 := by
      by_contra hne
      exact hd (h3.mpr (by omega))
    simp [fin_ok, hd, run_st_inv, h1, h0]

theorem fin_err_inv {s : RunSt} (h : run_st_inv s) (msg : String) :
    run_st_inv (fin_err msg s) := by
  obtain ⟨h1, h2, h3⟩ := h
  by_cases hd : s.done = true
  · simpa [fin_err, hd] using ⟨h1, h2, h3⟩
  · have h0 : s.resolutions = 0 := by
      by_contra hne
      exact hd (h3.mpr (by omega))
    simp [fin_err, hd, run_st_inv, h1, h0]

theorem run_cmd_step_out (cmd : String) (n : ℕ) (c : String) (s : RunSt) :
    run_cmd_step cmd s (Ev.out n c) = on_chunk_out cmd n c s := rfl

theorem run_cmd_step_err (cmd : String) (n : ℕ) (c : String) (s : RunSt) :
    run_cmd_step cmd s (Ev.err n c) = on_chunk_err cmd n c s := rfl

theorem run_cmd_step_close (cmd : String) (code : Option ℤ) (s : RunSt) :
    run_cmd_step cmd s (Ev.close code) = on_close cmd code s := rfl

theorem run_cmd_step_spawn (cmd m : String) (s : RunSt) :
    run_cmd_step cmd s (Ev.spawnError m) = fin_err m s := rfl

theorem run_cmd_step_timer (cmd : String) (s : RunSt) :
    run_cmd_step cmd s Ev.timer =
      fin_err ( TIMEOUT_PREFIX ++ toString CMD_TIMEOUT_MS ++ "ms: " ++ cmd) s := rfl

theorem on_chunk_out_eq (cmd : String) (n : ℕ) (c : String) (s : RunSt) :
    on_chunk_out cmd n c s =
      (if s.out_len + n + s.err_len > MAX_BUFFER then
        fin_err ("output exceeded max buffer: " ++ cmd)
          { s with out_bufs := s.out_bufs ++ [c], out_len := s.out_len + n }
      else
        { s with out_bufs := s.out_bufs ++ [c], out_len := s.out_len + n }) := rfl

theorem on_chunk_err_eq (cmd : String) (n : ℕ) (c : String) (s : RunSt) :
    on_chunk_err cmd n c s =
      (if s.out_len + (s.err_len + n) > MAX_BUFFER then
        fin_err ("output exceeded max buffer: " ++ cmd)
          { s with err_bufs := s.err_bufs ++ [c], err_len := s.err_len + n }
      else
        { s with err_bufs := s.err_bufs ++ [c], err_len := s.err_len + n }) := rfl

theorem run_st_inv_ite_fin_err {t : RunSt} (h : run_st_inv t) (cond : Prop)
    [Decidable cond] (m : String) : run_st_inv (if cond then fin_err m t else t) := by
  split
  · exact fin_err_inv h m
  · exact h

theorem on_chunk_out_inv {s : RunSt} (h : run_st_inv s) (cmd : String)
    (n : ℕ) (c : String) : run_st_inv (on_chunk_out cmd n c s) := by
  rw [on_chunk_out_eq]
  apply run_st_inv_ite_fin_err
  exact h

theorem on_chunk_err_inv {s : RunSt} (h : run_st_inv s) (cmd : String)
    (n : ℕ) (c : String) : run_st_inv (on_chunk_err cmd n c s) := by
  rw [on_chunk_err_eq]
  apply run_st_inv_ite_fin_err
  exact h

theorem on_close_inv {s : RunSt} (h : run_st_inv s) (cmd : String) (code : Option ℤ) :
    run_st_inv (on_close cmd code s) := by
  unfold on_close
  split
  · exact fin_ok_inv h _
  · exact fin_err_inv h _

theorem run_cmd_step_inv {cmd : String} {s : RunSt} {e : Ev} (h : run_st_inv s) :
    run_st_inv (run_cmd_step cmd s e) := by
  cases e with
  | out n c =>
    rw [run_cmd_step_out]
    exact on_chunk_out_inv h cmd n c
  | err n c =>
    rw [run_cmd_step_err]
    exact on_chunk_err_inv h cmd n c
  | close code =>
    rw [run_cmd_step_close]
    exact on_close_inv h cmd code
  | spawnError msg =>
    rw [run_cmd_step_spawn]
    exact fin_err_inv h msg
  | timer =>
    rw [run_cmd_step_timer]
    exact fin_err_inv h _

/-- Once finished, every later event leaves the completion state (done
flag, stored result, resolution and cleanup counters) untouched: a later
completion attempt for the same invocation is a no-op. -/
theorem run_cmd_step_preserve {cmd : String} {s : RunSt} {e : Ev} (h : s.done = true) :
    (run_cmd_step cmd s e).done = true ∧
    (run_cmd_step cmd s e).result = s.result ∧
    (run_cmd_step cmd s e).resolutions = s.resolutions ∧
    (run_cmd_step cmd s e).cleanups = s.cleanups := by
  cases e with
  | out n c =>
    rw [run_cmd_step_out, on_chunk_out_eq]
    split <;> simp [fin_err, h]
  | err n c =>
    rw [run_cmd_step_err, on_chunk_err_eq]
    split <;> simp [fin_err, h]
  | close code =>
    rw [run_cmd_step_close]
    unfold on_close
    split <;> simp [fin_ok, fin_err, h]
  | spawnError msg =>
    rw [run_cmd_step_spawn]
    simp [fin_err, h]
  | timer =>
    rw [run_cmd_step_timer]
    simp [fin_err, h]

theorem run_cmd_fold_preserve (cmd : String) :
    ∀ (evs : List Ev) (s : RunSt), s.done = true →
      ((evs.foldl (run_cmd_step cmd) s).done = true ∧
       (evs.foldl (run_cmd_step cmd) s).result = s.result ∧
       (evs.foldl (run_cmd_step cmd) s).resolutions = s.resolutions ∧
       (evs.foldl (run_cmd_step cmd) s).cleanups = s.cleanups) := by
  intro evs
  induction evs with
  | nil =>
    intro s h
    exact ⟨h, rfl, rfl, rfl⟩
  | cons e rest ih =>
    intro s h
    have hp := @run_cmd_step_preserve cmd s e h
    have hr := ih (run_cmd_step cmd s e) hp.1
    refine ⟨hr.1, ?_, ?_, ?_⟩
    · rw [List.foldl_cons, hr.2.1, hp.2.1]
    · rw [List.foldl_cons, hr.2.2.1, hp.2.2.1]
    · rw [List.foldl_cons, hr.2.2.2, hp.2.2.2]

/-- A `close`, spawn-`error` or timer event always finishes the
invocation (whichever handler wins, a finalizer has fired by then). -/
theorem run_cmd_step_terminal {cmd : String} {s : RunSt} {e : Ev}
    (h : ev_terminal e = true) : (run_cmd_step cmd s e).done = true := by
  cases e with
  | out n c => simp [ev_terminal] at h
  | err n c => simp [ev_terminal] at h
  | close code =>
    rw [run_cmd_step_close]
    unfold on_close
    split <;> by_cases hd : s.done = true <;> simp [fin_ok, fin_err, hd]
  | spawnError msg =>
    rw [run_cmd_step_spawn]
    by_cases hd : s.done = true <;> simp [fin_err, hd]
  | timer =>
    rw [run_cmd_step_timer]
    by_cases hd : s.done = true <;> simp [fin_err, hd]

theorem run_cmd_fold_done (cmd : String) :
    ∀ (evs : List Ev) (s : RunSt), run_st_inv s →
      (s.done = true ∨ ∃ e ∈ evs, ev_terminal e = true) →
      ((evs.foldl (run_cmd_step cmd) s).done = true ∧
        run_st_inv (evs.foldl (run_cmd_step cmd) s)) := by
  intro evs
  induction evs with
  | nil =>
    intro s hi hd
    rcases hd with hd | ⟨e, he, _⟩
    · exact ⟨hd, hi⟩
    · simp at he
  | cons e rest ih =>
    intro s hi hd
    have hi' : run_st_inv (run_cmd_step cmd s e) := run_cmd_step_inv hi
    rcases hd with hd | ⟨e', he', ht⟩
    · exact ih _ hi' (Or.inl (run_cmd_step_preserve hd).1)
    · rcases List.mem_cons.mp he' with rfl | hmem
      · exact ih _ hi' (Or.inl (run_cmd_step_terminal ht))
      · exact ih _ hi' (Or.inr ⟨e', hmem, ht⟩)

/-- Processing chunk events from an unfinished state whose running total
will exceed `MAX_BUFFER` rejects with the overflow diagnostic. -/
theorem run_cmd_chunks_overflow (cmd : String) :
    ∀ (evs : List Ev) (s : RunSt), s.done = false →
      (∀ e ∈ evs, ev_is_chunk e = true) →
      s.out_len + s.err_len ≤ MAX_BUFFER →
      MAX_BUFFER < s.out_len + s.err_len + (evs.map ev_bytes).sum →
      ((evs.foldl (run_cmd_step cmd) s).done = true ∧
        (evs.foldl (run_cmd_step cmd) s).result =
          some (CmdRes.fail ("output exceeded max buffer: " ++ cmd))) := by
  intro evs
  induction evs with
  | nil =>
    intro s hd _ hle hov
    exfalso
    simp at hov
    omega
  | cons e rest ih =>
    intro s hd hch hle hov
    have hce : ev_is_chunk e = true := hch e (List.mem_cons_self e rest)
    have hov' : MAX_BUFFER < s.out_len + s.err_len + ev_bytes e + (rest.map ev_bytes).sum := by
      simp only [List.map_cons, List.sum_cons] at hov
      omega
    cases e with
    | close code => simp [ev_is_chunk] at hce
    | spawnError m => simp [ev_is_chunk] at hce
    | timer => simp [ev_is_chunk] at hce
    | out n c =>
      rw [List.foldl_cons, run_cmd_step_out, on_chunk_out_eq]
      split
      · have hT1 : (fin_err ("output exceeded max buffer: " ++ cmd)
            { s with out_bufs := s.out_bufs ++ [c], out_len := s.out_len + n }).done = true := by
          simp [fin_err, hd]
        have hT2 : (fin_err ("output exceeded max buffer: " ++ cmd)
            { s with out_bufs := s.out_bufs ++ [c], out_len := s.out_len + n }).result =
            some (CmdRes.fail ("output exceeded max buffer: " ++ cmd)) := by
          simp [fin_err, hd]
        have hp := run_cmd_fold_preserve cmd rest _ hT1
        exact ⟨hp.1, by rw [hp.2.1, hT2]⟩
      · next hofl =>
        have hb : ev_bytes (Ev.out n c) = n := rfl
        rw [hb] at hov'
        refine ih { s with out_bufs := s.out_bufs ++ [c], out_len := s.out_len + n }
          hd (fun e he => hch e (List.mem_cons_of_mem _ he)) ?_ ?_
        · show s.out_len + n + s.err_len ≤ MAX_BUFFER
          omega
        · show MAX_BUFFER < s.out_len + n + s.err_len + (rest.map ev_bytes).sum
          omega
    | err n c =>
      rw [List.foldl_cons, run_cmd_step_err, on_chunk_err_eq]
      split
      · have hT1 : (fin_err ("output exceeded max buffer: " ++ cmd)
            { s with err_bufs := s.err_bufs ++ [c], err_len := s.err_len + n }).done = true := by
          simp [fin_err, hd]
        have hT2 : (fin_err ("output exceeded max buffer: " ++ cmd)
            { s with err_bufs := s.err_bufs ++ [c], err_len := s.err_len + n }).result =
            some (CmdRes.fail ("output exceeded max buffer: " ++ cmd)) := by
          simp [fin_err, hd]
        have hp := run_cmd_fold_preserve cmd rest _ hT1
        exact ⟨hp.1, by rw [hp.2.1, hT2]⟩
      · next hofl =>
        have hb : ev_bytes (Ev.err n c) = n := rfl
        rw [hb] at hov'
        refine ih { s with err_bufs := s.err_bufs ++ [c], err_len := s.err_len + n }
          hd (fun e he => hch e (List.mem_cons_of_mem _ he)) ?_ ?_
        · show s.out_len + (s.err_len + n) ≤ MAX_BUFFER
          omega
        · show MAX_BUFFER < s.out_len + (s.err_len + n) + (rest.map ev_bytes).sum
          omega

end Bench

/-! ## Claims C5, C8: the process supervisor -/

/-- **C5** (confirmed).  For every command whose captured stdout plus
stderr bytes exceed the fixed ceiling `MAX_BUFFER`, `run_cmd` rejects
with the "output exceeded max buffer" diagnostic (a message distinct
from any non-zero-exit failure, which the close handler builds from the
trimmed streams or the generic "command failed" text) and never resolves
with the captured stdout — even when the close event later reports exit
code 0. -/
theorem C5_theorem (cmd_txt : String) (chunks : List Ev) (code : Option ℤ)
    (hch : ∀ e ∈ chunks, ev_is_chunk e = true)
    (hov : MAX_BUFFER < (chunks.map ev_bytes).sum) :
    (run_cmd_events cmd_txt (chunks ++ [Ev.close code])).result =
      some (CmdRes.fail ("output exceeded max buffer: " ++ cmd_txt)) ∧
    (∀ out, (run_cmd_events cmd_txt (chunks ++ [Ev.close code])).result ≠
      some (CmdRes.ok out)) := by
  have hmid := run_cmd_chunks_overflow cmd_txt chunks run_st_init rfl hch
    (by simp [run_st_init]) (by simpa [run_st_init] using hov)
  have hres : (run_cmd_events cmd_txt (chunks ++ [Ev.close code])).result =
      some (CmdRes.fail ("output exceeded max buffer: " ++ cmd_txt)) := by
    unfold run_cmd_events
    rw [List.foldl_append]
    have hp := run_cmd_fold_preserve cmd_txt [Ev.close code] _ hmid.1
    rw [hp.2.1, hmid.2]
  refine ⟨hres, fun out h => ?_⟩
  rw [hres] at h
  simp at h

/-- **C5** (witness): one 64MiB+1 stdout chunk, then a clean exit 0. -/
theorem C5_witness :
    (run_cmd_events "hvm prog.hvm" [Ev.out 67108865 "x", Ev.close (some 0)]).result =
      some (CmdRes.fail ("output exceeded max buffer: " ++ "hvm prog.hvm")) ∧
    (∀ out, (run_cmd_events "hvm prog.hvm" [Ev.out 67108865 "x", Ev.close (some 0)]).result ≠
      some (CmdRes.ok out)) :=
  C5_theorem "hvm prog.hvm" [Ev.out 67108865 "x"] (some 0)
    (by
      intro e he
      simp at he
      subst he
      rfl)
    (by norm_num [ev_bytes, MAX_BUFFER])

/-- **C8** (confirmed).  For one `run_cmd` invocation, whatever order
the close, spawn-error, overflow-triggering chunk and timer events are
delivered in, as long as at least one terminal event arrives (every real
invocation gets one — the timer fires if nothing else does), exactly one
finalizer fires and post-resolution cleanup (timer clearing plus
registry removal) runs exactly once; later completion attempts are
no-ops. -/
theorem C8_theorem (cmd_txt : String) (evs : List Ev)
    (h : ∃ e ∈ evs, ev_terminal e = true) :
    (run_cmd_events cmd_txt evs).resolutions = 1 ∧
    (run_cmd_events cmd_txt evs).cleanups = 1 ∧
    (run_cmd_events cmd_txt evs).done = true := by
  unfold run_cmd_events
  have hfd := run_cmd_fold_done cmd_txt evs run_st_init run_st_inv_init (Or.inr h)
  obtain ⟨h1, _h2, h3⟩ := hfd.2
  have hres := h3.mp hfd.1
  refine ⟨hres, ?_, hfd.1⟩
  rw [h1, hres]

/-- **C8** (witness). -/
theorem C8_witness :
    (run_cmd_events "x" [Ev.close (some 0)]).resolutions = 1 ∧
    (run_cmd_events "x" [Ev.close (some 0)]).cleanups = 1 ∧
    (run_cmd_events "x" [Ev.close (some 0)]).done = true :=
  C8_theorem "x" [Ev.close (some 0)] ⟨Ev.close (some 0), by simp, rfl⟩

/-! ## Claim C6: the artifact cache -/

/-- **C6** (confirmed).  For a key not yet cached: if the first
compile-and-cache call's build succeeds, the call returns the artifact
path, the second call with the same key executes no build and returns
the identical path (at most one build in total); if the first build
fails, the rejection propagates, no cache entry is stored, and a second
call with the same key attempts the build again. -/
theorem C6_theorem (exec1 exec2 : Except String String)
    (cache : List (String × String)) (b fl f fil1 fil2 : String)
    (hmiss : cache_lookup cache (bend_hvm_key b fl f) = none) :
    (∀ out, exec1 = Except.ok out →
      (bend_compile_hvm exec1 cache b fl f fil1).built = true ∧
      (bend_compile_hvm exec1 cache b fl f fil1).result = Except.ok fil1 ∧
      (bend_compile_hvm exec2 (bend_compile_hvm exec1 cache b fl f fil1).cache
          b fl f fil2).built = false ∧
      (bend_compile_hvm exec2 (bend_compile_hvm exec1 cache b fl f fil1).cache
          b fl f fil2).result = Except.ok fil1) ∧
    (∀ e, exec1 = Except.error e →
      (bend_compile_hvm exec1 cache b fl f fil1).cache = cache ∧
      (bend_compile_hvm exec1 cache b fl f fil1).result = Except.error e ∧
      (bend_compile_hvm exec2 (bend_compile_hvm exec1 cache b fl f fil1).cache
          b fl f fil2).built = true) := by
  rw [bend_hvm_key] at hmiss
  constructor
  · intro out hok
    subst hok
    cases hexec2 : exec2 with
    | ok o2 => simp [bend_compile_hvm, hmiss, cache_lookup]
    | error e2 => simp [bend_compile_hvm, hmiss, cache_lookup]
  · intro e herr
    subst herr
    cases hexec2 : exec2 with
    | ok o2 => simp [bend_compile_hvm, hmiss, cache_lookup]
    | error e2 => simp [bend_compile_hvm, hmiss, cache_lookup]

/-- **C6** (witness). -/
theorem C6_witness :
    (bend_compile_hvm (Except.ok "code") [] "bend" "--to-hvm" "m.bend" "a.hvm").built = true ∧
    (bend_compile_hvm (Except.ok "code") [] "bend" "--to-hvm" "m.bend" "a.hvm").result =
      Except.ok "a.hvm" ∧
    (bend_compile_hvm (Except.ok "code")
        (bend_compile_hvm (Except.ok "code") [] "bend" "--to-hvm" "m.bend" "a.hvm").cache
        "bend" "--to-hvm" "m.bend" "b.hvm").built = false ∧
    (bend_compile_hvm (Except.ok "code")
        (bend_compile_hvm (Except.ok "code") [] "bend" "--to-hvm" "m.bend" "a.hvm").cache
        "bend" "--to-hvm" "m.bend" "b.hvm").result = Except.ok "a.hvm" :=
  (C6_theorem (Except.ok "code") (Except.ok "code") [] "bend" "--to-hvm" "m.bend"
    "a.hvm" "b.hvm" rfl).1 "code" rfl

namespace Bench

/-! ## Lemmas about the execution matrix -/

theorem bench_entry_row (o : String → String → Except String ℚ) (r : RowM) (m : ModeM) :
    (bench_entry o r m).row = r := rfl

theorem bench_entry_mode (o : String → String → Except String ℚ) (r : RowM) (m : ModeM) :
    (bench_entry o r m).mode = m := rfl

/-- `na` is assigned at matrix construction exactly when the mode's
required input file is absent. -/
theorem cell_init_state_na_iff (mode : ModeM) (row : RowM) :
    cell_init_state mode row = CellState.na ↔ required_input_missing mode row = true := by
  cases hm : mode.input <;>
    cases hb : row.bend_file <;>
      cases hh : row.hvm_file <;>
        simp [cell_init_state, required_input_missing, hm, hb, hh]

/-- Final cell state of one settled entry is `na` iff the required input
was missing; a missing input also means the run function was never
invoked and the cell never counts as a failure. -/
theorem bench_entry_na_iff (o : String → String → Except String ℚ)
    (row : RowM) (mode : ModeM) :
    ((bench_entry o row mode).cell.state = CellState.na ↔
      required_input_missing mode row = true) ∧
    (required_input_missing mode row = true →
      (bench_entry o row mode).invoked = false ∧ (bench_entry o row mode).flagged = false) := by
  by_cases hna : cell_init_state mode row = CellState.na
  · have hreq := (cell_init_state_na_iff mode row).mp hna
    refine ⟨⟨fun _ => hreq, fun _ => ?_⟩, fun _ => ?_⟩
    · simp [bench_entry, cell_run, cell_new, hna]
    · constructor <;> simp [bench_entry, cell_run, cell_new, hna]
  · have hreq : required_input_missing mode row = false := by
      rcases Bool.eq_false_or_eq_true (required_input_missing mode row) with ht | hf
      · exact absurd ((cell_init_state_na_iff mode row).mpr ht) hna
      · exact hf
    refine ⟨?_, fun ht => ?_⟩
    · rw [hreq]
      simp only [Bool.false_eq_true, iff_false]
      cases ho : o row.name mode.flag with
      | ok secs => simp [bench_entry, cell_run, cell_new, hna, ho]
      | error msg =>
        simp only [bench_entry, cell_run, cell_new, hna, ho, if_false]
        split <;> simp
    · rw [ht] at hreq
      simp at hreq

/-- A settled entry flags a failure iff its final state is `error` or
`timeout`. -/
theorem bench_entry_flagged_iff (o : String → String → Except String ℚ)
    (row : RowM) (mode : ModeM) :
    (bench_entry o row mode).flagged = true ↔
      ((bench_entry o row mode).cell.state = CellState.error ∨
       (bench_entry o row mode).cell.state = CellState.timeout) := by
  by_cases hna : cell_init_state mode row = CellState.na
  · simp [bench_entry, cell_run, cell_new, hna]
  · cases ho : o row.name mode.flag with
    | ok secs => simp [bench_entry, cell_run, cell_new, hna, ho]
    | error msg =>
      simp only [bench_entry, cell_run, cell_new, hna, ho, if_false]
      split <;> simp

/-- Every settled entry of `bench_all` arises from one (row, mode)
pair. -/
theorem bench_all_entries_shape (o : String → String → Except String ℚ)
    (rows : List RowM) (modes : List ModeM) :
    ∀ entry ∈ (bench_all o rows modes).entries,
      ∃ r ∈ rows, ∃ m ∈ modes, entry = bench_entry o r m := by
  intro entry he
  by_cases hrows : rows.isEmpty = true
  · simp [bench_all, hrows] at he
  · rw [show (bench_all o rows modes).entries =
        rows.flatMap (fun row => modes.map (bench_entry o row)) by
      simp [bench_all, hrows]] at he
    rw [List.mem_flatMap] at he
    obtain ⟨r, hr, he2⟩ := he
    rw [List.mem_map] at he2
    obtain ⟨m, hm, hmk⟩ := he2
    exact ⟨r, hr, m, hm, hmk.symm⟩

theorem bench_all_flat_flagged (o : String → String → Except String ℚ)
    (rows : List RowM) (modes : List ModeM) :
    ∀ e ∈ rows.flatMap (fun row => modes.map (bench_entry o row)),
      (e.flagged = true ↔
        (e.cell.state = CellState.error ∨ e.cell.state = CellState.timeout)) := by
  intro e he
  rw [List.mem_flatMap] at he
  obtain ⟨r, _, he2⟩ := he
  rw [List.mem_map] at he2
  obtain ⟨m, _, rfl⟩ := he2
  exact bench_entry_flagged_iff o r m

end Bench

/-! ## Claim C7: the execution matrix -/

/-- **C7** (counterexample).  `bench_all` with zero discovered rows
exits with code 1 although no cell ended in `error` or `timeout` (there
are no cells at all), so the aggregate result is not failing *iff* some
cell ended in error/timeout. -/
theorem C7_counterexample :
    (bench_all (fun _ _ => Except.ok 1) [] [⟨"hvmi", ModeInput.hvm⟩]).code = 1 ∧
    (bench_all (fun _ _ => Except.ok 1) [] [⟨"hvmi", ModeInput.hvm⟩]).entries = [] :=
  ⟨rfl, rfl⟩

/-- **C7** (amended).  For every benchmark row and selected mode, the
cell is `na` at the end iff the mode's required input file is absent
from the row (it is assigned `na` at construction, never transitions,
and the mode's run function is never invoked for it; it never counts as
a failure); and — provided at least one benchmark row was discovered —
the aggregate exit code of `bench_all` is non-zero iff some cell ended
in `error` or `timeout`.  (With zero rows, `bench_all` exits 1 outright
with no cells.) -/
theorem C7_theorem (outcome : String → String → Except String ℚ)
    (rows : List RowM) (modes : List ModeM) :
    (∀ entry ∈ (bench_all outcome rows modes).entries,
      ((entry.cell.state = CellState.na ↔
          required_input_missing entry.mode entry.row = true) ∧
        (required_input_missing entry.mode entry.row = true →
          entry.invoked = false ∧ entry.flagged = false))) ∧
    (rows ≠ [] →
      ((bench_all outcome rows modes).code ≠ 0 ↔
        ∃ entry ∈ (bench_all outcome rows modes).entries,
          entry.cell.state = CellState.error ∨ entry.cell.state = CellState.timeout)) := by
  constructor
  · intro entry he
    obtain ⟨r, _, m, _, rfl⟩ := bench_all_entries_shape outcome rows modes entry he
    rw [bench_entry_row, bench_entry_mode]
    have h := bench_entry_na_iff outcome r m
    exact ⟨h.1, h.2⟩
  · intro hne
    have hemp : rows.isEmpty = false := by
      cases rows with
      | nil => exact absurd rfl hne
      | cons a l => rfl
    have hcode : (bench_all outcome rows modes).code =
        (if (rows.flatMap (fun row => modes.map (bench_entry outcome row))).any
            (fun e => e.flagged) then 1 else 0) := by
      simp [bench_all, hemp]
    have hentries : (bench_all outcome rows modes).entries =
        rows.flatMap (fun row => modes.map (bench_entry outcome row)) := by
      simp [bench_all, hemp]
    rw [hcode, hentries]
    constructor
    · intro hne0
      rcases Bool.eq_false_or_eq_true ((rows.flatMap
          (fun row => modes.map (bench_entry outcome row))).any (fun e => e.flagged)) with ht | hf
      · obtain ⟨e, he, hfl⟩ := List.any_eq_true.mp ht
        exact ⟨e, he, (bench_all_flat_flagged outcome rows modes e he).mp hfl⟩
      · rw [hf] at hne0
        simp at hne0
    · intro hex
      obtain ⟨e, he, hst⟩ := hex
      have hfl : e.flagged = true :=
        (bench_all_flat_flagged outcome rows modes e he).mpr hst
      have hany := List.any_eq_true.mpr ⟨e, he, hfl⟩
      rw [hany]
      simp

/-- **C7** (witness):  a row with only an hvm file under a bend-input
mode yields an `na` cell, exit code 0, and no error/timeout cell. -/
theorem C7_witness :
    ((bench_all (fun _ _ => Except.error "boom") [⟨"r", none, some "f"⟩]
        [⟨"bend-bun", ModeInput.bend⟩]).code ≠ 0 ↔
      ∃ entry ∈ (bench_all (fun _ _ => Except.error "boom") [⟨"r", none, some "f"⟩]
          [⟨"bend-bun", ModeInput.bend⟩]).entries,
        entry.cell.state = CellState.error ∨ entry.cell.state = CellState.timeout) :=
  (C7_theorem (fun _ _ => Except.error "boom") [⟨"r", none, some "f"⟩]
    [⟨"bend-bun", ModeInput.bend⟩]).2 (by simp)

/-- **C4** (witness). -/
theorem C4_witness :
    sample_finish 0 0 = SampleRes.nan ∧
      (run_sampled (fun _ => some 1) ⟨0, 1, 1, 0⟩).result ≠ SampleRes.nan :=
  ⟨C4_theorem.1, C4_theorem.2 (fun _ => some 1) ⟨0, 1, 1, 0⟩⟩
